import Mathlib

/-!
Verification of the effective-background resolution core of the apcach Figma
plugin (src/code.ts). The TypeScript code is shallowly embedded: JS numbers
are modelled as rationals, optional properties as `Option`, the scene graph
as a rose tree addressed by paths of child indices, and code that can fail
at runtime (non-null assertions, casts) as `Except Unit`. The plugin caches
(`nodePathCache`, `nodeDepthCache`, `intersectionCache`) are purely
memoization of the functions modelled here and are omitted: we model the
cache-miss computation, which is what the caches replay.
-/

namespace FigmaBg

/-- Semantics of JS `Math.round`: round half toward positive infinity,
    i.e. `Math.round x = floor (x + 1/2)`. Implemented with `Int.fdiv`
    (floor division) on the numerator/denominator so that it evaluates. -/
def jsRound (q : ℚ) : ℤ :=
  let s := q + 1/2
  Int.fdiv s.num s.den

/-- Figma `BlendMode` string union (all 19 values of the plugin API). -/
inductive BlendMode where
  | NORMAL
  | DARKEN
  | MULTIPLY
  | COLOR_BURN
  | LINEAR_BURN
  | LIGHTEN
  | SCREEN
  | COLOR_DODGE
  | LINEAR_DODGE
  | OVERLAY
  | SOFT_LIGHT
  | HARD_LIGHT
  | DIFFERENCE
  | EXCLUSION
  | HUE
  | SATURATION
  | COLOR
  | LUMINOSITY
  | PASS_THROUGH
  deriving DecidableEq

/-- code.ts line 42: `const UNSUPPORTED_BLEND_MODES: BlendMode[] = ['LINEAR_BURN', 'LINEAR_DODGE']`. -/
def UNSUPPORTED_BLEND_MODES : List BlendMode := [.LINEAR_BURN, .LINEAR_DODGE]

/-- code.ts `hasValidBlendMode(blendMode?: BlendMode)`: undefined counts as
    valid; otherwise valid iff not in the unsupported list. -/
def hasValidBlendMode (blendMode : Option BlendMode) : Bool :=
  match blendMode with
  | none => true
  | some bm => !(UNSUPPORTED_BLEND_MODES.contains bm)

/-- code.ts `isSupportedBlendMode`: explicit allow-list of 17 modes
    (everything except LINEAR_BURN and LINEAR_DODGE). -/
def isSupportedBlendMode (mode : BlendMode) : Bool :=
  let supportedBlendModes : List BlendMode :=
    [.NORMAL, .PASS_THROUGH, .MULTIPLY, .SCREEN, .OVERLAY, .DARKEN, .LIGHTEN,
     .COLOR_DODGE, .COLOR_BURN, .HARD_LIGHT, .SOFT_LIGHT, .DIFFERENCE,
     .EXCLUSION, .HUE, .SATURATION, .COLOR, .LUMINOSITY]
  supportedBlendModes.contains mode

/-- code.ts `isSupportedFillBlendMode` simply delegates to `isSupportedBlendMode`. -/
def isSupportedFillBlendMode (mode : BlendMode) : Bool :=
  isSupportedBlendMode mode

/-- A color as Figma stores it on a solid paint (channels are 0..1 floats)
    and also as the detector returns it (channels 0..255); both are plain
    `{r, g, b}` records of JS numbers. -/
structure RGB where
  r : ℚ
  g : ℚ
  b : ℚ
  deriving DecidableEq

/-- Page-background result of `getPageBackground`: `{r, g, b, opacity}`. -/
structure RGBA where
  r : ℚ
  g : ℚ
  b : ℚ
  opacity : ℚ
  deriving DecidableEq

/-- The paint payload of a Figma `Paint`. Only `SOLID` paints carry a color
    (`SolidPaint.color`); all other paint kinds are lumped per their use in
    the plugin, which only ever tests `fill.type === 'SOLID'`. -/
inductive FillPaint where
  | solid (color : RGB)
  | gradient
  | image
  deriving DecidableEq

/-- A Figma `Paint` (fill): paint kind plus the optional per-fill
    `visible`, `opacity` and `blendMode` properties. -/
structure Fill where
  paint : FillPaint
  visible : Option Bool
  opacity : Option ℚ
  blendMode : Option BlendMode
  deriving DecidableEq

/-- JS test `fill.type === 'SOLID'`. -/
def Fill.isSolid (f : Fill) : Bool :=
  match f.paint with
  | .solid _ => true
  | _ => false

/-- An axis-aligned bounding box (`absoluteBoundingBox`): `{x, y, width, height}`. -/
structure Rect where
  x : ℚ
  y : ℚ
  width : ℚ
  height : ℚ
  deriving DecidableEq

/-- The strict bounding-box overlap test used verbatim at every
    intersection site in code.ts:
    `boxA.x < boxB.x + boxB.width && boxA.x + boxA.width > boxB.x &&
     boxA.y < boxB.y + boxB.height && boxA.y + boxA.height > boxB.y`. -/
def rectsOverlap (boxA boxB : Rect) : Bool :=
  decide (boxA.x < boxB.x + boxB.width) &&
  decide (boxA.x + boxA.width > boxB.x) &&
  decide (boxA.y < boxB.y + boxB.height) &&
  decide (boxA.y + boxA.height > boxB.y)

/-- The inclusive containment test of `doesNodeContain` (and the
    `encapsulates` disjunct of `doesNodeIntersectOrEncapsulate`):
    all four edges of `inner` lie inside `outer`. -/
def rectContainsRect (outer inner : Rect) : Bool :=
  decide (inner.x ≥ outer.x) &&
  decide (inner.y ≥ outer.y) &&
  decide (inner.x + inner.width ≤ outer.x + outer.width) &&
  decide (inner.y + inner.height ≤ outer.y + outer.height)

/-- The `isSignificantlyLarger` disjunct of `doesNodeIntersectOrEncapsulate`:
    `boxA.width > boxB.width * 3 && boxA.height > boxB.height * 3`. -/
def rectSignificantlyLarger (boxA boxB : Rect) : Bool :=
  decide (boxA.width > boxB.width * 3) &&
  decide (boxA.height > boxB.height * 3)

/-- The per-node data of a Figma `SceneNode` as read by the background
    detector. `Option` models the presence checks (`'fills' in node`,
    `'visible' in node`, ...) that the code performs before each access. -/
structure NodeData where
  id : Nat
  visible : Option Bool
  opacity : Option ℚ
  blendMode : Option BlendMode
  fills : Option (List Fill)
  bbox : Option Rect
  deriving DecidableEq

/-- A scene node: its own data plus its ordered children (bottom-most
    sibling first, exactly Figma's `children` order). -/
inductive Node where
  | mk (data : NodeData) (children : List Node)

/-- Projection to the node's own data. -/
def Node.data : Node → NodeData
  | .mk d _ => d

/-- Projection to the node's ordered children. -/
def Node.children : Node → List Node
  | .mk _ cs => cs

/-- A node's address in the page: the list of child indices from a
    root-level node down to the node. Parent pointers of the live API
    become `dropLast` on the path. -/
abbrev NodePath := List Nat

/-- A node together with its address; the shape the flattened traversal
    (`getAllNodesOnPage`) produces. -/
structure FNode where
  path : NodePath
  node : Node

/-- One Figma page with its node forest and the three background-color
    carrying properties probed by `getPageBackground`. `pageId`/`docId`
    model the identities of the `PageNode` and `DocumentNode`. -/
structure Scene where
  pageId : Nat
  docId : Nat
  pageChildren : List Node
  pageFills : Option (List Fill)
  pageBackgrounds : Option (List Fill)
  pageBackground : Option Fill

/-- Resolve a path relative to a node (`[]` is the node itself). -/
def lookupFrom (n : Node) : NodePath → Option Node
  | [] => some n
  | i :: rest => (n.children[i]?).bind (fun c => lookupFrom c rest)

/-- Resolve a path from the page root; `[]` (the page itself) is not a
    `SceneNode` and resolves to `none`. -/
def Scene.lookup (sc : Scene) : NodePath → Option Node
  | [] => none
  | i :: rest => (sc.pageChildren[i]?).bind (fun n => lookupFrom n rest)

/-- The chain of nodes the JS `while (current) { ...; current = current.parent }`
    walks, starting at the node itself and ending at its root-level
    ancestor (the page and document have no `NodePath`). -/
def selfAndAncestorPaths (p : NodePath) : List NodePath :=
  ((List.range p.length).reverse).map (fun k => p.take (k + 1))

/-- The eligibility predicate inside `hasValidSolidFill` (code.ts 2712-2718):
    `fill.type === 'SOLID' && (fill.visible === undefined || fill.visible === true)
     && (fill.opacity === undefined || fill.opacity > 0)`. -/
def isEligibleFill (f : Fill) : Bool :=
  f.isSolid &&
  (f.visible == none || f.visible == some true) &&
  (match f.opacity with
   | none => true
   | some o => decide (o > 0))

/-- code.ts `hasValidSolidFill` (2695-2721): requires a `fills` property, a
    node not explicitly hidden, node opacity not `<= 0`, a non-empty fill
    list, and some fill satisfying `isEligibleFill`. -/
def hasValidSolidFill (n : Node) : Bool :=
  match n.data.fills with
  | none => false
  | some fills =>
    if n.data.visible == some false then false
    else if (match n.data.opacity with
             | none => false
             | some o => decide (o ≤ 0)) then false
    else if fills.length == 0 then false
    else (fills.find? isEligibleFill).isSome

/-- The extraction predicate used at every color-extraction site of
    `detectBackgroundColor` (e.g. lines 231, 274, 402, 458):
    `f.type === 'SOLID' && f.visible !== false`. Note: no opacity test. -/
def isVisibleSolidFill (f : Fill) : Bool :=
  f.isSolid && !(f.visible == some false)

/-- The `fills.find(f => f.type === 'SOLID' && f.visible !== false)` call of
    the extraction sites. -/
def getActualFill (n : Node) : Option Fill :=
  (n.data.fills.getD []).find? isVisibleSolidFill

/-- Color extraction after a successful guard: the code casts the `find`
    result to `SolidPaint` and reads `.color`, scaling with
    `Math.round(c * 255)`. A failed `find` (or a non-solid result) would
    make the property access throw, modelled as `Except.error`. -/
def extractSolidColor (n : Node) : Except Unit RGB :=
  match getActualFill n with
  | some f =>
    match f.paint with
    | .solid c => .ok ⟨(jsRound (c.r * 255) : ℤ), (jsRound (c.g * 255) : ℤ), (jsRound (c.b * 255) : ℤ)⟩
    | _ => .error ()
  | none => .error ()

/-- code.ts `hasValidBlendModes` (107-132). Despite its doc comment
    ("Recursively check if a node and all its children...") the
    implementation examines only the node's own blend mode and the blend
    modes of its own solid fills; it never descends into children. -/
def hasValidBlendModes (n : Node) : Bool :=
  (match n.data.blendMode with
   | none => true
   | some nodeBlendMode =>
     !(!(nodeBlendMode == .PASS_THROUGH) && !(isSupportedBlendMode nodeBlendMode))) &&
  (match n.data.fills with
   | none => true
   | some fills =>
     fills.all (fun fill =>
       !(fill.isSolid &&
         (match fill.blendMode with
          | some bm => !(isSupportedFillBlendMode bm)
          | none => false))))

/-- code.ts `doesNodeContain` (565-587): inclusive bounding-box
    containment; `false` when either box is missing. -/
def doesNodeContain (containerNode targetNode : Node) : Bool :=
  match containerNode.data.bbox, targetNode.data.bbox with
  | some containerBox, some targetBox => rectContainsRect containerBox targetBox
  | _, _ => false

/-- code.ts `doesNodeIntersectOrEncapsulate` (592-631): overlap, or
    inclusive containment of B by A, or A being more than 3x larger than B
    in both dimensions (this last disjunct holds even for disjoint boxes). -/
def doesNodeIntersectOrEncapsulate (nodeA nodeB : Node) : Bool :=
  match nodeA.data.bbox, nodeB.data.bbox with
  | some boxA, some boxB =>
    rectsOverlap boxA boxB || rectContainsRect boxA boxB || rectSignificantlyLarger boxA boxB
  | _, _ => false

/-- The id of the node's direct parent: the page id for a root-level node,
    otherwise the id of the node at `p.dropLast` (`none` models a detached
    `parent == null`, which cannot happen for a node found in the scene). -/
def parentIdOf (sc : Scene) (p : NodePath) : Option Nat :=
  match p with
  | [] => none
  | _ :: _ =>
    if p.length = 1 then some sc.pageId
    else (Scene.lookup sc p.dropLast).map (fun n => n.data.id)

/-- JS `parent.children.indexOf(node)` for an attached node is its position
    among its siblings, i.e. the last component of its path; the
    `?? -1` default of `createPolychromNode` covers the empty path. -/
def zIndexOf (p : NodePath) : Int :=
  match p.getLast? with
  | some i => (i : Int)
  | none => -1

/-- code.ts `doesNodeIntersectAndIsBelow` (521-560): false without both
    boxes or without overlap; for same-parent nodes compares sibling
    indices (`indexB < indexA`); for everything else returns `true`
    ("we assume they intersect and nodeB is below"). -/
def doesNodeIntersectAndIsBelow (sc : Scene) (nodeA nodeB : FNode) : Bool :=
  match nodeA.node.data.bbox, nodeB.node.data.bbox with
  | some boxA, some boxB =>
    if rectsOverlap boxA boxB then
      match parentIdOf sc nodeA.path, parentIdOf sc nodeB.path with
      | some pa, some pb =>
        if pa == pb then decide (zIndexOf nodeB.path < zIndexOf nodeA.path)
        else true
      | _, _ => true
    else false
  | _, _ => false

/-- code.ts `getNodeDepth` (885-903): walks `current = current.parent`
    counting steps until the parentless `DocumentNode`; for a node at path
    `p` the chain is the `p.length` nodes of the path plus the page. -/
def getNodeDepth (p : NodePath) : Nat := p.length + 1

/-- The `doesIntersect` helper local to `findIntersectingNodesBelow`
    (699-716): requires both `absoluteBoundingBox`es and tests overlap. -/
def doesIntersect (nodeA nodeB : Node) : Bool :=
  match nodeA.data.bbox, nodeB.data.bbox with
  | some boxA, some boxB => rectsOverlap boxA boxB
  | _, _ => false

/-- The `isNodeVisible` helper local to `findIntersectingNodesBelow`
    (719-731): the node and every ancestor with a `visible` property must
    be visible (the page and document have none). -/
def isNodeVisible (sc : Scene) (p : NodePath) : Bool :=
  (selfAndAncestorPaths p).all (fun q =>
    match Scene.lookup sc q with
    | some n => n.data.visible.getD true
    | none => true)

mutual
/-- The `traverse` helper of `getAllNodesOnPage` (737-751): the node
    itself, then its children recursively (pre-order). -/
def collectNode (p : NodePath) (n : Node) : List FNode :=
  match n with
  | .mk d cs => ⟨p, .mk d cs⟩ :: collectChildren p 0 cs
  termination_by structural n
/-- Pre-order traversal of a child list, numbering the children from `i`. -/
def collectChildren (p : NodePath) (i : Nat) (l : List Node) : List FNode :=
  match l with
  | [] => []
  | c :: cs => collectNode (p ++ [i]) c ++ collectChildren p (i + 1) cs
  termination_by structural l
end

/-- code.ts `getAllNodesOnPage` (734-760): traverse every top-level node of
    the current page. -/
def getAllNodesOnPage (sc : Scene) : List FNode :=
  collectChildren [] 0 sc.pageChildren

/-- Stable insertion respecting a JS comparator: the new element goes after
    every earlier element that compares `<= 0` against it. -/
def insertJs (cmp : α → α → Int) (x : α) : List α → List α
  | [] => [x]
  | y :: ys => if cmp y x ≤ 0 then y :: insertJs cmp x ys else x :: y :: ys

/-- `Array.prototype.sort(cmp)` for a consistent comparator: the stable
    sort (ES2019 requires stability), realized as insertion sort. -/
def sortJs (cmp : α → α → Int) (l : List α) : List α :=
  l.foldl (fun acc x => insertJs cmp x acc) []

/-- One entry of the ancestor chains collected by the z-order comparator of
    `findIntersectingNodesBelow` (807-822): enough of each ancestor to
    replay the id comparisons of the common-ancestor search. -/
structure AncEntry where
  id : Nat
  parentId : Option Nat
  isPage : Bool
  childIds : List Nat

/-- The id of the node at a path (0 for an unresolvable path, which the
    comparator never dereferences for nodes actually in the scene). -/
def nodeIdAt (sc : Scene) (q : NodePath) : Nat :=
  (Scene.lookup sc q).elim 0 (fun n => n.data.id)

/-- The ids of the children of the node at a path. -/
def childIdsAt (sc : Scene) (q : NodePath) : List Nat :=
  (Scene.lookup sc q).elim [] (fun n => n.children.map (fun c => c.data.id))

/-- The `AncEntry` for the scene node at path `q`. Every non-page common
    ancestor the comparator interrogates is a container, so the JS
    `'children' in commonAncestor` test holds for these entries. -/
def ancEntryAt (sc : Scene) (q : NodePath) : AncEntry :=
  { id := nodeIdAt sc q
    parentId := if q.length = 1 then some sc.pageId else some (nodeIdAt sc q.dropLast)
    isPage := false
    childIds := childIdsAt sc q }

/-- The `AncEntry` for the page (its parent is the document). -/
def pageAncEntry (sc : Scene) : AncEntry :=
  { id := sc.pageId
    parentId := some sc.docId
    isPage := true
    childIds := sc.pageChildren.map (fun c => c.data.id) }

/-- The `AncEntry` for the document (its parent is `null`). -/
def docAncEntry (sc : Scene) : AncEntry :=
  { id := sc.docId
    parentId := none
    isPage := false
    childIds := [sc.pageId] }

/-- The full ancestor chain the comparator's `while (current)` loop pushes:
    the node, its node ancestors, the page, the document. -/
def ancestorsEntries (sc : Scene) (p : NodePath) : List AncEntry :=
  (selfAndAncestorPaths p).map (ancEntryAt sc) ++ [pageAncEntry sc, docAncEntry sc]

/-- `nodeIdToIndex.get(id) || 0` (766-770, 836-838): the flat-list index of
    the id (later duplicates overwrite earlier ones in the `Map`), 0 when
    missing. -/
def lastFlatIndexOf (flat : List FNode) (id : Nat) : Int :=
  match (flat.reverse).findIdx? (fun e => e.node.data.id == id) with
  | some k => ((flat.length - 1 - k : Nat) : Int)
  | none => 0

/-- The z-order comparator of `findIntersectingNodesBelow` (795-873):
    same-parent nodes compare by sibling index; otherwise find the first
    common ancestor by id, locate the direct children of it on each chain,
    and compare their positions in its child list; every failure falls back
    to comparing `getNodeDepth` (deeper first); a missing common ancestor
    falls back to flat traversal order. -/
def intersectSortCmp (sc : Scene) (flat : List FNode) (a b : FNode) : Int :=
  let depthFallback : Int := (getNodeDepth b.path : Int) - (getNodeDepth a.path : Int)
  let pa := parentIdOf sc a.path
  let pb := parentIdOf sc b.path
  if pa.isSome && pb.isSome && pa == pb then
    zIndexOf a.path - zIndexOf b.path
  else
    let aAnc := ancestorsEntries sc a.path
    let bAnc := ancestorsEntries sc b.path
    match aAnc.find? (fun ea => bAnc.any (fun eb => eb.id == ea.id)) with
    | none => lastFlatIndexOf flat a.node.data.id - lastFlatIndexOf flat b.node.data.id
    | some commonAncestor =>
      match aAnc.findIdx? (fun ea => ea.parentId == some commonAncestor.id),
            bAnc.findIdx? (fun eb => eb.parentId == some commonAncestor.id) with
      | some aDirectChildIndex, some bDirectChildIndex =>
        let aChildId := (aAnc[aDirectChildIndex]?).elim 0 (fun e => e.id)
        let bChildId := (bAnc[bDirectChildIndex]?).elim 0 (fun e => e.id)
        if !commonAncestor.isPage then
          match commonAncestor.childIds.findIdx? (fun cid => cid == aChildId),
                commonAncestor.childIds.findIdx? (fun cid => cid == bChildId) with
          | some aChildIndex, some bChildIndex => (aChildIndex : Int) - (bChildIndex : Int)
          | _, _ => depthFallback
        else depthFallback
      | _, _ => depthFallback

/-- code.ts `findIntersectingNodesBelow` (671-880), cache-miss path: flatten
    the page, filter out the target itself, the non-intersecting and the
    invisible nodes, then sort with the z-order comparator. -/
def findIntersectingNodesBelow (sc : Scene) (targetNode : FNode) : List FNode :=
  let allNodes := getAllNodesOnPage sc
  let intersectingNodes := allNodes.filter (fun node =>
    !(node.node.data.id == targetNode.node.data.id) &&
    doesIntersect targetNode.node node.node &&
    isNodeVisible sc node.path)
  sortJs (intersectSortCmp sc allNodes) intersectingNodes

/-- code.ts `getNodeFills` (2763-2777) restricted to scene nodes (the page
    branch reading `backgrounds` is never reached from the detector). -/
def getNodeFills (n : Node) : List Fill :=
  match n.data.fills with
  | some fills => fills
  | none => []

/-- The ids of a node's parents as collected by `collectNodeParents`
    (2783-2796): every ancestor node below the page, nearest first. Only
    the length (the nesting level) is consumed downstream. -/
def collectNodeParents (sc : Scene) (p : NodePath) : List Nat :=
  ((selfAndAncestorPaths p).drop 1).map (nodeIdAt sc)

/-- The `PolychromNode` record built by `createPolychromNode` (2727-2757),
    without the always-empty `children` array. -/
structure PolyNode where
  id : Nat
  isSelected : Bool
  nestingLevel : Nat
  opacity : ℚ
  visible : Bool
  blendMode : BlendMode
  fills : List Fill
  zIndex : Option Int

/-- code.ts `createPolychromNode` (2727-2757): blend mode defaults to
    `PASS_THROUGH`, `nestingLevel` is the number of collected parents,
    `zIndex` is `node.parent?.children?.indexOf(node) ?? -1`. -/
def createPolychromNode (sc : Scene) (e : FNode) (selectedNodeId : Nat) : PolyNode :=
  { blendMode := e.node.data.blendMode.getD .PASS_THROUGH
    fills := getNodeFills e.node
    id := e.node.data.id
    isSelected := e.node.data.id == selectedNodeId
    nestingLevel := (collectNodeParents sc e.path).length
    opacity := e.node.data.opacity.getD 1
    visible := e.node.data.visible.getD true
    zIndex := some (zIndexOf e.path) }

/-- The PHASE 4 comparator of `detectBackgroundColor` (337-347): nesting
    level descending, then `(a.zIndex ?? 0) - (b.zIndex ?? 0)`. -/
def polySortCmp (a b : PolyNode) : Int :=
  if !(a.nestingLevel == b.nestingLevel) then
    (b.nestingLevel : Int) - (a.nestingLevel : Int)
  else
    (a.zIndex.getD 0) - (b.zIndex.getD 0)

/-- Lookup in the `nodeMap` of PHASE 4 (353-355): the `Map` is populated by
    a `forEach`, so a later entry with the same id overwrites an earlier
    one — the last occurrence wins. -/
def lookupById (l : List FNode) (id : Nat) : Option FNode :=
  (l.reverse).find? (fun e => e.node.data.id == id)

/-- The PHASE 4 map-back `sortedPolyNodes.map(pNode => nodeMap.get(pNode.id)!)`:
    the non-null assertion throws when the map misses. -/
def resolveSortedNodes (inter : List FNode) : List PolyNode → Except Unit (List FNode)
  | [] => .ok []
  | pn :: rest =>
    match lookupById inter pn.id with
    | some e =>
      match resolveSortedNodes inter rest with
      | .ok l => .ok (e :: l)
      | .error er => .error er
    | none => .error ()

/-- The find-predicate of `getPageBackground` for page fills/backgrounds:
    `type === 'SOLID' && (visible === undefined || visible === true)`. -/
def pageSolidVisible (f : Fill) : Bool :=
  f.isSolid && (f.visible == none || f.visible == some true)

/-- JS `opacity || 1`: `undefined` and the falsy `0` both yield 1. -/
def jsOpacityOr1 (o : Option ℚ) : ℚ :=
  match o with
  | none => 1
  | some q => if q = 0 then 1 else q

/-- The legacy `page.background` branch of `getPageBackground` (2025-2057):
    a single paint, accepted when it is `SOLID` (its `visible` flag is not
    consulted here); otherwise the constant dark fallback (2082-2085). -/
def pageBgLegacyBranch (sc : Scene) : RGBA :=
  match sc.pageBackground with
  | some background =>
    match background.paint with
    | .solid c => ⟨c.r * 255, c.g * 255, c.b * 255, jsOpacityOr1 background.opacity⟩
    | _ => ⟨30, 30, 30, 1⟩
  | none => ⟨30, 30, 30, 1⟩

/-- The `page.backgrounds` branch of `getPageBackground` (2000-2022),
    falling through to the legacy branch. -/
def pageBgBackgroundsBranch (sc : Scene) : RGBA :=
  match sc.pageBackgrounds with
  | some backgrounds =>
    if backgrounds.length > 0 then
      match backgrounds.find? pageSolidVisible with
      | some f =>
        match f.paint with
        | .solid c => ⟨c.r * 255, c.g * 255, c.b * 255, jsOpacityOr1 f.opacity⟩
        | _ => pageBgLegacyBranch sc
      | none => pageBgLegacyBranch sc
    else pageBgLegacyBranch sc
  | none => pageBgLegacyBranch sc

/-- code.ts `getPageBackground` (1963-2092): try `page.fills`, then
    `page.backgrounds`, then the legacy single `page.background`; each hit
    returns the color scaled by 255 (unrounded); otherwise the constant
    dark fallback `{r: 30, g: 30, b: 30, opacity: 1}`. The function always
    returns a record (its `catch` also returns the fallback). -/
def getPageBackground (sc : Scene) : RGBA :=
  match sc.pageFills with
  | some fills =>
    if fills.length > 0 then
      match fills.find? pageSolidVisible with
      | some f =>
        match f.paint with
        | .solid c => ⟨c.r * 255, c.g * 255, c.b * 255, jsOpacityOr1 f.opacity⟩
        | _ => pageBgBackgroundsBranch sc
      | none => pageBgBackgroundsBranch sc
    else pageBgBackgroundsBranch sc
  | none => pageBgBackgroundsBranch sc

/-- A JS object (such as the record `getPageBackground` returns) is always
    truthy; this models the `if (pageBackground)` test of PHASE 7. -/
def jsTruthy (_ : RGBA) : Bool := true

/-- Which phase of the fallback chain of `detectBackgroundColor` produced
    the returned color. -/
inductive Phase where
  | sibling
  | parent
  | intersecting
  | ancestor
  | page
  | fallback
  deriving DecidableEq

/-- The PHASE 1 sibling loop (198-249): scan the reversed `siblingsBehind`
    (nearest to the target first); the first sibling with a valid solid
    fill that intersects or encapsulates the target yields its extracted
    fill color; other siblings are skipped. -/
def phase1Scan (node : Node) : List Node → Except Unit (Option RGB)
  | [] => .ok none
  | sibling :: rest =>
    if hasValidSolidFill sibling then
      if doesNodeIntersectOrEncapsulate sibling node then
        match extractSolidColor sibling with
        | .ok c => .ok (some c)
        | .error er => .error er
      else phase1Scan node rest
    else phase1Scan node rest

/-- The siblings of the node at `p`: its parent's `children`
    (the page's children for a root-level node). -/
def getSiblings (sc : Scene) (p : NodePath) : Except Unit (List Node) :=
  match p.dropLast with
  | [] => .ok sc.pageChildren
  | pp =>
    match Scene.lookup sc pp with
    | some parentNode => .ok parentNode.children
    | none => .error ()

/-- PHASE 1 of `detectBackgroundColor` (184-254): take the siblings
    strictly before the node's own index, reverse them, and scan. -/
def phase1 (sc : Scene) (p : NodePath) (node : Node) : Except Unit (Option RGB) :=
  match getSiblings sc p with
  | .error er => .error er
  | .ok siblings =>
    let nodeIndex := p.getLast?.getD 0
    let siblingsBehind := siblings.take nodeIndex
    phase1Scan node siblingsBehind.reverse

/-- PHASE 2 of `detectBackgroundColor` (256-303): when the parent is not
    the page and has a `fills` property and a valid solid fill, return its
    extracted fill color. -/
def phase2 (sc : Scene) (p : NodePath) : Except Unit (Option RGB) :=
  match p.dropLast with
  | [] => .ok none
  | pp =>
    match Scene.lookup sc pp with
    | none => .error ()
    | some parentNode =>
      match parentNode.data.fills with
      | none => .ok none
      | some _ =>
        if hasValidSolidFill parentNode then
          match extractSolidColor parentNode with
          | .ok c => .ok (some c)
          | .error er => .error er
        else .ok none

/-- The PHASE 5 loop (360-420): skip nodes with invalid blend modes, then
    require a valid solid fill and `doesNodeIntersectAndIsBelow(target, node)`,
    then extract the fill color. -/
def phase5Scan (sc : Scene) (target : FNode) : List FNode → Except Unit (Option RGB)
  | [] => .ok none
  | intersectingNode :: rest =>
    if !(hasValidBlendModes intersectingNode.node) then phase5Scan sc target rest
    else if hasValidSolidFill intersectingNode.node then
      if doesNodeIntersectAndIsBelow sc target intersectingNode then
        match extractSolidColor intersectingNode.node with
        | .ok c => .ok (some c)
        | .error er => .error er
      else phase5Scan sc target rest
    else phase5Scan sc target rest

/-- The PHASE 6 ancestor walk (437-478): starting from an intersecting
    node's parent, up to 3 levels, stopping at the page; break on an
    unsupported blend mode; return the extracted fill color of the first
    ancestor with a valid solid fill that contains the target. -/
def ancestorWalk (sc : Scene) (targetNode : Node) (cur : NodePath) : Nat → Except Unit (Option RGB)
  | 0 => .ok none
  | remaining + 1 =>
    if cur.isEmpty then .ok none
    else
      match Scene.lookup sc cur with
      | none => .error ()
      | some current =>
        if (match current.data.blendMode with
            | some bm => !(hasValidBlendMode (some bm))
            | none => false) then .ok none
        else
          if current.data.fills.isSome && hasValidSolidFill current then
            if doesNodeContain current targetNode then
              match extractSolidColor current with
              | .ok c => .ok (some c)
              | .error er => .error er
            else ancestorWalk sc targetNode cur.dropLast remaining
          else ancestorWalk sc targetNode cur.dropLast remaining

/-- The PHASE 6 outer loop (427-479): for each intersecting node with valid
    blend modes, walk its ancestors. -/
def phase6Scan (sc : Scene) (targetNode : Node) : List FNode → Except Unit (Option RGB)
  | [] => .ok none
  | intersectingNode :: rest =>
    if !(hasValidBlendModes intersectingNode.node) then phase6Scan sc targetNode rest
    else
      match ancestorWalk sc targetNode intersectingNode.path.dropLast 3 with
      | .error er => .error er
      | .ok (some c) => .ok (some c)
      | .ok none => phase6Scan sc targetNode rest

/-- PHASES 3-6 (305-482): find the intersecting nodes; when non-empty,
    convert to `PolychromNode`s, sort, map back, and run the PHASE 5 and
    PHASE 6 scans. -/
def interBlock (sc : Scene) (p : NodePath) (node : Node) : Except Unit (Option (RGB × Phase)) :=
  let intersectingNodes := findIntersectingNodesBelow sc ⟨p, node⟩
  if intersectingNodes.length > 0 then
    let polyNodes := intersectingNodes.map (fun e => createPolychromNode sc e e.node.data.id)
    let sortedPolyNodes := sortJs polySortCmp polyNodes
    match resolveSortedNodes intersectingNodes sortedPolyNodes with
    | .error er => .error er
    | .ok sortedNodes =>
      match phase5Scan sc ⟨p, node⟩ sortedNodes with
      | .error er => .error er
      | .ok (some c) => .ok (some (c, Phase.intersecting))
      | .ok none =>
        match phase6Scan sc node sortedNodes with
        | .error er => .error er
        | .ok (some c) => .ok (some (c, Phase.ancestor))
        | .ok none => .ok none
  else .ok none

/-- PHASES 7-8 (484-509): `getPageBackground` always returns a truthy
    record, so PHASE 7 returns its color; the PHASE 8 constant
    `{r: 30, g: 30, b: 30}` is behind the always-true object test. -/
def phase7 (sc : Scene) : RGB × Phase :=
  let pageBackground := getPageBackground sc
  if jsTruthy pageBackground then
    (⟨pageBackground.r, pageBackground.g, pageBackground.b⟩, Phase.page)
  else
    (⟨30, 30, 30⟩, Phase.fallback)

/-- Chain one phase in front of the rest of the fallback chain. -/
def orPhase (step : Except Unit (Option RGB)) (ph : Phase)
    (rest : Except Unit (RGB × Phase)) : Except Unit (RGB × Phase) :=
  match step with
  | .error er => .error er
  | .ok (some c) => .ok (c, ph)
  | .ok none => rest

/-- The body of the `try` block of `detectBackgroundColor` (157-509),
    tagged with the phase that produced the color. An `.error` is a thrown
    JS exception (caught by the wrapper below). -/
def detectTry (sc : Scene) (p : NodePath) : Except Unit (RGB × Phase) :=
  match Scene.lookup sc p with
  | none => .error ()
  | some node =>
    orPhase (phase1 sc p node) Phase.sibling
      (orPhase (phase2 sc p) Phase.parent
        (match interBlock sc p node with
         | .error er => .error er
         | .ok (some cp) => .ok cp
         | .ok none => .ok (phase7 sc)))

/-- code.ts `detectBackgroundColor` (156-516): the `catch` branch maps any
    thrown exception to the fixed dark fallback `{r: 30, g: 30, b: 30}`. -/
def detectBackgroundColor (sc : Scene) (p : NodePath) : RGB :=
  match detectTry sc p with
  | .ok (c, _) => c
  | .error _ => ⟨30, 30, 30⟩

/-! ## Concrete scenes used for counterexamples and witnesses -/

/-- A solid fill with default (absent) `visible`, `opacity` and `blendMode`. -/
def solidFill (c : RGB) : Fill := ⟨.solid c, none, none, none⟩

/-- Node data with only id, bounding box, fills and blend mode populated. -/
def mkData (id : Nat) (bbox : Option Rect) (fills : Option (List Fill))
    (bm : Option BlendMode) : NodeData :=
  ⟨id, none, none, bm, fills, bbox⟩

/-- A childless node. -/
def leaf (d : NodeData) : Node := .mk d []

/-- Pure red with full channels (Figma 0..1 scale). -/
def red : RGB := ⟨1, 0, 0⟩

/-- Pure green. -/
def green : RGB := ⟨0, 1, 0⟩

/-- Pure blue. -/
def blue : RGB := ⟨0, 0, 1⟩

/-- A page with a single bare node (no fills anywhere): resolution must run
    the whole fallback chain down to the page background. -/
def sceneBare : Scene :=
  { pageId := 100, docId := 101
    pageChildren := [leaf (mkData 1 (some ⟨0, 0, 10, 10⟩) none none)]
    pageFills := none, pageBackgrounds := none, pageBackground := none }

/-- A red solid fill whose per-fill opacity is 0. -/
def redZeroOpacityFill : Fill := ⟨.solid red, none, some 0, none⟩

/-- A blue solid fill with per-fill opacity 1. -/
def blueOpaqueFill : Fill := ⟨.solid blue, none, some 1, none⟩

/-- The sibling whose first visible solid fill has opacity 0 and whose
    second fill is eligible. -/
def mixedFillSibling : Node :=
  leaf (mkData 2 (some ⟨0, 0, 20, 20⟩) (some [redZeroOpacityFill, blueOpaqueFill]) none)

/-- Scene for C2: the mixed-fill sibling sits behind the bare target. -/
def sceneOpacityZero : Scene :=
  { pageId := 100, docId := 101
    pageChildren := [mixedFillSibling, leaf (mkData 1 (some ⟨0, 0, 10, 10⟩) none none)]
    pageFills := none, pageBackgrounds := none, pageBackground := none }

/-- The target of `sceneAbove`: root-level child 0. -/
def aboveTarget : Node := leaf (mkData 1 (some ⟨0, 0, 10, 10⟩) none none)

/-- The node of `sceneAbove` at root index 1, above the target in root
    stacking order and overlapping it. -/
def aboveNode : Node := leaf (mkData 2 (some ⟨5, 5, 10, 10⟩) none none)

/-- Scene for C3: the selected node is root-level child 0; child 1 is above
    it in stacking order and overlaps it. -/
def sceneAbove : Scene :=
  { pageId := 100, docId := 101
    pageChildren := [aboveTarget, aboveNode]
    pageFills := none, pageBackgrounds := none, pageBackground := none }

/-- The green-filled child nested inside the LINEAR_BURN frame. -/
def burnFrameChild : Node :=
  leaf (mkData 3 (some ⟨2, 2, 5, 5⟩) (some [solidFill green]) (some .NORMAL))

/-- Scene for C5: a frame with unsupported blend mode LINEAR_BURN (and no
    usable fill of its own) holds a normally-blended green child; the bare
    target sits above both. -/
def sceneBurnFrame : Scene :=
  { pageId := 100, docId := 101
    pageChildren :=
      [Node.mk (mkData 2 (some ⟨0, 0, 30, 30⟩) (some []) (some .LINEAR_BURN)) [burnFrameChild],
       leaf (mkData 1 (some ⟨0, 0, 10, 10⟩) none none)]
    pageFills := none, pageBackgrounds := none, pageBackground := none }

/-- The LINEAR_BURN sibling with a red solid fill. -/
def burnSibling : Node :=
  leaf (mkData 2 (some ⟨0, 0, 20, 20⟩) (some [solidFill red]) (some .LINEAR_BURN))

/-- Scene for C6: a sibling with unsupported blend mode and a valid red
    fill sits directly behind the bare target and overlaps it. -/
def sceneBurnSibling : Scene :=
  { pageId := 100, docId := 101
    pageChildren := [burnSibling, leaf (mkData 1 (some ⟨0, 0, 10, 10⟩) none none)]
    pageFills := none, pageBackgrounds := none, pageBackground := none }

/-- Bounding box of the far-away large sibling. -/
def farSiblingBox : Rect := ⟨0, 0, 100, 100⟩

/-- Bounding box of the tiny far-away target. -/
def farTargetBox : Rect := ⟨1000, 1000, 5, 5⟩

/-- Scene for C7: a red 100x100 sibling at the origin, the 5x5 target at
    (1000, 1000) — geometrically disjoint, no containment. -/
def sceneFarSibling : Scene :=
  { pageId := 100, docId := 101
    pageChildren :=
      [leaf (mkData 2 (some farSiblingBox) (some [solidFill red]) none),
       leaf (mkData 1 (some farTargetBox) none none)]
    pageFills := none, pageBackgrounds := none, pageBackground := none }

/-- The selected node of `sceneSelfFill`: a blue-filled frame. -/
def selfFillFrame : Node :=
  Node.mk (mkData 1 (some ⟨0, 0, 100, 100⟩) (some [solidFill blue]) none)
    [leaf (mkData 2 (some ⟨10, 10, 20, 20⟩) (some []) none)]

/-- Scene for C8: the selected frame (the only node with any fill in the
    whole scene) contains a fill-less child that intersects it. -/
def sceneSelfFill : Scene :=
  { pageId := 100, docId := 101
    pageChildren := [selfFillFrame]
    pageFills := none, pageBackgrounds := none, pageBackground := none }

/-- The root-level target of `sceneNonSibling` (path `[1]`). -/
def nonSiblingA : FNode := ⟨[1], leaf (mkData 1 (some ⟨5, 5, 10, 10⟩) none none)⟩

/-- The nested candidate of `sceneNonSibling` (path `[0, 0]`, inside the
    frame with id 2). -/
def nonSiblingB : FNode := ⟨[0, 0], leaf (mkData 3 (some ⟨0, 0, 40, 40⟩) (some [solidFill red]) none)⟩

/-- Scene for C10: the candidate is nested in a different parent than the
    root-level target, and their boxes overlap. -/
def sceneNonSibling : Scene :=
  { pageId := 100, docId := 101
    pageChildren :=
      [Node.mk (mkData 2 (some ⟨0, 0, 50, 50⟩) none none) [nonSiblingB.node],
       nonSiblingA.node]
    pageFills := none, pageBackgrounds := none, pageBackground := none }

/-- Two polychrom nodes at equal nesting level with z-indices 2 and 0. -/
def polyZ2 : PolyNode :=
  { id := 1, isSelected := false, nestingLevel := 0, opacity := 1, visible := true
    blendMode := .NORMAL, fills := [], zIndex := some 2 }

/-- The comparison partner of `polyZ2` with z-index 0. -/
def polyZ0 : PolyNode :=
  { id := 2, isSelected := false, nestingLevel := 0, opacity := 1, visible := true
    blendMode := .NORMAL, fills := [], zIndex := some 0 }

/-! ## Lemmas about fills and extraction -/

/-- An eligible fill also satisfies the weaker extraction predicate. -/
theorem isVisibleSolidFill_of_eligible (f : Fill) (h : isEligibleFill f = true) :
    isVisibleSolidFill f = true := by
  simp only [isEligibleFill, Bool.and_eq_true, Bool.or_eq_true, beq_iff_eq] at h
  obtain ⟨⟨hs, hv⟩, _⟩ := h
  simp only [isVisibleSolidFill, Bool.and_eq_true, hs, true_and, Bool.not_eq_true',
    beq_eq_false_iff_ne, ne_eq]
  rcases hv with hv | hv <;> simp [hv]

/-- Peeling one guard of a `if c then false else x` chain that evaluated to
    `true`: the guard must have been false. -/
theorem of_if_false {c : Prop} [Decidable c] {x : Bool}
    (h : (if c then false else x) = true) : x = true := by
  by_cases hc : c
  · rw [if_pos hc] at h
    exact absurd h (by simp)
  · rwa [if_neg hc] at h

/-- A validated node always extracts: `getActualFill` finds a fill, that
    fill is solid, and reading its color succeeds. -/
theorem extractSolidColor_isOk (n : Node) (h : hasValidSolidFill n = true) :
    ∃ c, extractSolidColor n = Except.ok c := by
  unfold hasValidSolidFill at h
  cases hf : n.data.fills with
  | none => rw [hf] at h; simp at h
  | some fills =>
    rw [hf] at h
    replace h := of_if_false (of_if_false (of_if_false h))
    obtain ⟨f, hfind⟩ := Option.isSome_iff_exists.mp h
    have hel := List.find?_some hfind
    have hmem := List.mem_of_find?_eq_some hfind
    have hvis := isVisibleSolidFill_of_eligible f hel
    have hsome : (fills.find? isVisibleSolidFill).isSome := by
      cases hall : fills.find? isVisibleSolidFill with
      | none =>
        have := List.find?_eq_none.mp hall f hmem
        simp [hvis] at this
      | some g => simp
    obtain ⟨g, hg⟩ := Option.isSome_iff_exists.mp hsome
    have hgp := List.find?_some hg
    simp only [isVisibleSolidFill, Bool.and_eq_true] at hgp
    obtain ⟨hgs, _⟩ := hgp
    unfold extractSolidColor getActualFill
    rw [hf]
    simp only [Option.getD_some, hg]
    cases hpaint : g.paint with
    | solid c => exact ⟨_, rfl⟩
    | gradient => simp [Fill.isSolid, hpaint] at hgs
    | image => simp [Fill.isSolid, hpaint] at hgs

/-! ## Lemmas about path lookup -/

/-- Lookup distributes over path concatenation. -/
theorem lookupFrom_append (n : Node) (q r : NodePath) :
    lookupFrom n (q ++ r) = (lookupFrom n q).bind (fun m => lookupFrom m r) := by
  induction q generalizing n with
  | nil => simp [lookupFrom]
  | cons i rest ih =>
    simp only [List.cons_append, lookupFrom]
    cases n.children[i]? with
    | none => simp
    | some c => simp [ih c]

/-- Scene lookup distributes over concatenation when the front part is
    nonempty. -/
theorem Scene.lookup_append (sc : Scene) (p r : NodePath) (hp : p ≠ []) :
    Scene.lookup sc (p ++ r) = (Scene.lookup sc p).bind (fun m => lookupFrom m r) := by
  cases p with
  | nil => exact absurd rfl hp
  | cons i rest =>
    simp only [List.cons_append, Scene.lookup]
    cases sc.pageChildren[i]? with
    | none => simp
    | some n => simp [lookupFrom_append]

/-- Walking to the parent of a node found in the scene lands on a node
    (or on the page when the path had length one). -/
theorem lookup_dropLast_isSome (sc : Scene) (p : NodePath) (n : Node)
    (h : Scene.lookup sc p = some n) (hne : p.dropLast ≠ []) :
    (Scene.lookup sc p.dropLast).isSome := by
  have hpne : p ≠ [] := by
    intro hcon
    rw [hcon] at h
    simp [Scene.lookup] at h
  have hsplit : p.dropLast ++ [p.getLast hpne] = p := List.dropLast_append_getLast hpne
  rw [← hsplit, Scene.lookup_append sc _ _ hne] at h
  cases hl : Scene.lookup sc p.dropLast with
  | none => rw [hl] at h; simp at h
  | some m => simp

/-! ## Soundness of the page traversal -/

mutual
/-- Every entry of `collectNode p n` resolves, relative to `n`, at a path
    extending `p`. -/
theorem collectNode_sound (n : Node) (p : NodePath) (e : FNode) (h : e ∈ collectNode p n) :
    ∃ q, e.path = p ++ q ∧ lookupFrom n q = some e.node := by
  match n with
  | .mk d cs =>
    rw [collectNode] at h
    rcases List.mem_cons.mp h with h | h
    · exact ⟨[], by simp [h, lookupFrom]⟩
    · obtain ⟨j, c, q, hc, hp, hl⟩ := collectChildren_sound p 0 cs e h
      refine ⟨(0 + j) :: q, hp, ?_⟩
      simp only [lookupFrom, Node.children]
      simp [hc, hl]
  termination_by structural n
/-- Every entry of `collectChildren p i l` resolves inside one of the
    children of `l`, numbered from `i`. -/
theorem collectChildren_sound (p : NodePath) (i : Nat) (l : List Node) (e : FNode)
    (h : e ∈ collectChildren p i l) :
    ∃ j c q, l[j]? = some c ∧ e.path = p ++ (i + j) :: q ∧ lookupFrom c q = some e.node := by
  match l with
  | [] => simp [collectChildren] at h
  | c :: cs =>
    rw [collectChildren] at h
    rcases List.mem_append.mp h with h | h
    · obtain ⟨q, hp, hl⟩ := collectNode_sound c (p ++ [i]) e h
      exact ⟨0, c, q, by simp, by simpa using hp, hl⟩
    · obtain ⟨j, c', q, hc, hp, hl⟩ := collectChildren_sound p (i + 1) cs e h
      refine ⟨j + 1, c', q, by simpa using hc, ?_, hl⟩
      rw [hp]
      congr 2
      omega
  termination_by structural l
end

/-- Every node produced by the page traversal resolves in the scene at its
    recorded path (in particular the path is nonempty). -/
theorem getAllNodesOnPage_sound (sc : Scene) (e : FNode) (h : e ∈ getAllNodesOnPage sc) :
    Scene.lookup sc e.path = some e.node := by
  obtain ⟨j, c, q, hc, hp, hl⟩ := collectChildren_sound [] 0 sc.pageChildren e h
  rw [hp]
  simp only [List.nil_append, Scene.lookup]
  simpa [hc] using hl

/-! ## The stable sort is a permutation -/

/-- `insertJs` only adds the inserted element. -/
theorem insertJs_perm (cmp : α → α → Int) (x : α) (l : List α) :
    (insertJs cmp x l).Perm (x :: l) := by
  induction l with
  | nil => simp [insertJs]
  | cons y ys ih =>
    simp only [insertJs]
    split
    · exact (ih.cons y).trans (List.Perm.swap x y ys)
    · exact List.Perm.refl _

/-- `sortJs` permutes its input. -/
theorem sortJs_perm (cmp : α → α → Int) (l : List α) : (sortJs cmp l).Perm l := by
  suffices h : ∀ (l acc : List α),
      (l.foldl (fun acc x => insertJs cmp x acc) acc).Perm (acc ++ l) by
    simpa using h l []
  intro l
  induction l with
  | nil => simp
  | cons x xs ih =>
    intro acc
    simp only [List.foldl_cons]
    refine (ih _).trans ?_
    refine ((insertJs_perm cmp x acc).append_right xs).trans ?_
    exact List.perm_middle.symm

/-- Membership is invariant under `sortJs`. -/
theorem mem_sortJs (cmp : α → α → Int) (l : List α) (a : α) :
    a ∈ sortJs cmp l ↔ a ∈ l :=
  (sortJs_perm cmp l).mem_iff

/-- Membership in the intersecting-node list, characterized: the full page
    traversal filtered by non-self (by id), bounding-box overlap with the
    target, and inherited visibility — with no z-order condition. -/
theorem mem_findIntersectingNodesBelow (sc : Scene) (t e : FNode) :
    e ∈ findIntersectingNodesBelow sc t ↔
      (e ∈ getAllNodesOnPage sc ∧ e.node.data.id ≠ t.node.data.id ∧
       doesIntersect t.node e.node = true ∧ isNodeVisible sc e.path = true) := by
  unfold findIntersectingNodesBelow
  rw [mem_sortJs, List.mem_filter]
  simp only [Bool.and_eq_true, Bool.not_eq_true', beq_eq_false_iff_ne, ne_eq]
  tauto

/-! ## No phase of the fallback chain actually throws -/

/-- The sibling scan cannot throw: its only extraction is guarded by
    `hasValidSolidFill`. -/
theorem phase1Scan_isOk (node : Node) (l : List Node) :
    ∃ r, phase1Scan node l = Except.ok r := by
  induction l with
  | nil => exact ⟨none, rfl⟩
  | cons sibling rest ih =>
    unfold phase1Scan
    by_cases hv : hasValidSolidFill sibling = true
    · rw [if_pos hv]
      by_cases hg : doesNodeIntersectOrEncapsulate sibling node = true
      · rw [if_pos hg]
        obtain ⟨c, hc⟩ := extractSolidColor_isOk sibling hv
        rw [hc]
        exact ⟨some c, rfl⟩
      · rw [if_neg hg]
        exact ih
    · rw [if_neg hv]
      exact ih

/-- Sibling retrieval succeeds for any node found in the scene. -/
theorem getSiblings_isOk (sc : Scene) (p : NodePath) (n : Node)
    (h : Scene.lookup sc p = some n) :
    ∃ sibs, getSiblings sc p = Except.ok sibs := by
  cases hd : p.dropLast with
  | nil => exact ⟨sc.pageChildren, by simp only [getSiblings, hd]⟩
  | cons j rest =>
    have hvalid : (Scene.lookup sc p.dropLast).isSome :=
      lookup_dropLast_isSome sc p n h (by simp [hd])
    rw [hd] at hvalid
    obtain ⟨m, hm⟩ := Option.isSome_iff_exists.mp hvalid
    exact ⟨m.children, by simp only [getSiblings, hd, hm]⟩

/-- PHASE 1 cannot throw on a node found in the scene. -/
theorem phase1_isOk (sc : Scene) (p : NodePath) (n : Node)
    (h : Scene.lookup sc p = some n) :
    ∃ r, phase1 sc p n = Except.ok r := by
  unfold phase1
  obtain ⟨sibs, hs⟩ := getSiblings_isOk sc p n h
  rw [hs]
  exact phase1Scan_isOk n _

/-- PHASE 2 cannot throw on a node found in the scene. -/
theorem phase2_isOk (sc : Scene) (p : NodePath) (n : Node)
    (h : Scene.lookup sc p = some n) :
    ∃ r, phase2 sc p = Except.ok r := by
  cases hd : p.dropLast with
  | nil => exact ⟨none, by simp only [phase2, hd]⟩
  | cons j rest =>
    have hvalid : (Scene.lookup sc p.dropLast).isSome :=
      lookup_dropLast_isSome sc p n h (by simp [hd])
    rw [hd] at hvalid
    obtain ⟨m, hm⟩ := Option.isSome_iff_exists.mp hvalid
    simp only [phase2, hd, hm]
    cases m.data.fills with
    | none => exact ⟨none, rfl⟩
    | some fills =>
      by_cases hv : hasValidSolidFill m = true
      · rw [if_pos hv]
        obtain ⟨c, hc⟩ := extractSolidColor_isOk m hv
        rw [hc]
        exact ⟨some c, rfl⟩
      · rw [if_neg hv]
        exact ⟨none, rfl⟩

/-- The `nodeMap` lookup succeeds for the id of any list member, and the
    found entry is itself a list member. -/
theorem lookupById_of_mem (l : List FNode) (e : FNode) (h : e ∈ l) :
    ∃ x, lookupById l e.node.data.id = some x ∧ x ∈ l := by
  have hrev : e ∈ l.reverse := List.mem_reverse.mpr h
  have hsome : (l.reverse.find? (fun x => x.node.data.id == e.node.data.id)).isSome := by
    cases hall : l.reverse.find? (fun x => x.node.data.id == e.node.data.id) with
    | none =>
      have := List.find?_eq_none.mp hall e hrev
      simp at this
    | some x => simp
  obtain ⟨x, hx⟩ := Option.isSome_iff_exists.mp hsome
  exact ⟨x, hx, List.mem_reverse.mp (List.mem_of_find?_eq_some hx)⟩

/-- The PHASE 4 map-back cannot throw when every sorted id resolves, and
    its output consists of members of the intersecting list. -/
theorem resolveSortedNodes_isOk (inter : List FNode) (sorted : List PolyNode)
    (h : ∀ pn ∈ sorted, ∃ x, lookupById inter pn.id = some x ∧ x ∈ inter) :
    ∃ l, resolveSortedNodes inter sorted = Except.ok l ∧ ∀ e ∈ l, e ∈ inter := by
  induction sorted with
  | nil => exact ⟨[], rfl, by simp⟩
  | cons pn rest ih =>
    obtain ⟨x, hx, hxm⟩ := h pn (by simp)
    obtain ⟨l, hl, hlm⟩ := ih (fun q hq => h q (by simp [hq]))
    refine ⟨x :: l, ?_, ?_⟩
    · unfold resolveSortedNodes
      rw [hx, hl]
    · intro e he
      rcases List.mem_cons.mp he with rfl | he
      · exact hxm
      · exact hlm e he

/-- The PHASE 5 scan cannot throw. -/
theorem phase5Scan_isOk (sc : Scene) (t : FNode) (l : List FNode) :
    ∃ r, phase5Scan sc t l = Except.ok r := by
  induction l with
  | nil => exact ⟨none, rfl⟩
  | cons e rest ih =>
    unfold phase5Scan
    by_cases hb : (!hasValidBlendModes e.node) = true
    · rw [if_pos hb]
      exact ih
    · rw [if_neg hb]
      by_cases hv : hasValidSolidFill e.node = true
      · rw [if_pos hv]
        by_cases hi : doesNodeIntersectAndIsBelow sc t e = true
        · rw [if_pos hi]
          obtain ⟨c, hc⟩ := extractSolidColor_isOk e.node hv
          rw [hc]
          exact ⟨some c, rfl⟩
        · rw [if_neg hi]
          exact ih
      · rw [if_neg hv]
        exact ih

/-- The PHASE 6 ancestor walk cannot throw when started on the page or on
    a path that resolves. -/
theorem ancestorWalk_isOk (sc : Scene) (t : Node) (cur : NodePath) (fuel : Nat)
    (h : cur = [] ∨ (Scene.lookup sc cur).isSome) :
    ∃ r, ancestorWalk sc t cur fuel = Except.ok r := by
  induction fuel generalizing cur with
  | zero => exact ⟨none, rfl⟩
  | succ rem ih =>
    by_cases hemp : cur.isEmpty = true
    · exact ⟨none, by unfold ancestorWalk; rw [if_pos hemp]⟩
    · have hval : (Scene.lookup sc cur).isSome := by
        rcases h with h | h
        · rw [h] at hemp; simp at hemp
        · exact h
      obtain ⟨m, hm⟩ := Option.isSome_iff_exists.mp hval
      have hnext : cur.dropLast = [] ∨ (Scene.lookup sc cur.dropLast).isSome := by
        cases hd : cur.dropLast with
        | nil => exact Or.inl rfl
        | cons j rest =>
          exact Or.inr (by rw [← hd]; exact lookup_dropLast_isSome sc cur m hm (by simp [hd]))
      unfold ancestorWalk
      rw [if_neg hemp]
      simp only [hm]
      by_cases hbm : (match m.data.blendMode with
          | some bm => !(hasValidBlendMode (some bm))
          | none => false) = true
      · rw [if_pos hbm]
        exact ⟨none, rfl⟩
      · rw [if_neg hbm]
        by_cases hv : (m.data.fills.isSome && hasValidSolidFill m) = true
        · rw [if_pos hv]
          by_cases hcont : doesNodeContain m t = true
          · rw [if_pos hcont]
            obtain ⟨c, hc⟩ := extractSolidColor_isOk m (Bool.and_eq_true .. ▸ hv).2
            rw [hc]
            exact ⟨some c, rfl⟩
          · rw [if_neg hcont]
            exact ih cur.dropLast hnext
        · rw [if_neg hv]
          exact ih cur.dropLast hnext

/-- The PHASE 6 outer loop cannot throw when every scanned entry has a
    path that resolves in the scene. -/
theorem phase6Scan_isOk (sc : Scene) (t : Node) (l : List FNode)
    (h : ∀ e ∈ l, (Scene.lookup sc e.path).isSome) :
    ∃ r, phase6Scan sc t l = Except.ok r := by
  induction l with
  | nil => exact ⟨none, rfl⟩
  | cons e rest ih =>
    unfold phase6Scan
    by_cases hb : (!hasValidBlendModes e.node) = true
    · rw [if_pos hb]
      exact ih (fun x hx => h x (by simp [hx]))
    · rw [if_neg hb]
      have hval := h e (by simp)
      obtain ⟨m, hm⟩ := Option.isSome_iff_exists.mp hval
      have hwalk : e.path.dropLast = [] ∨ (Scene.lookup sc e.path.dropLast).isSome := by
        cases hd : e.path.dropLast with
        | nil => exact Or.inl rfl
        | cons j rest' =>
          exact Or.inr (by rw [← hd]; exact lookup_dropLast_isSome sc e.path m hm (by simp [hd]))
      obtain ⟨r, hr⟩ := ancestorWalk_isOk sc t e.path.dropLast 3 hwalk
      rw [hr]
      cases r with
      | none => exact ih (fun x hx => h x (by simp [hx]))
      | some c => exact ⟨some c, rfl⟩

/-- PHASES 3-6 cannot throw. -/
theorem interBlock_isOk (sc : Scene) (p : NodePath) (n : Node) :
    ∃ r, interBlock sc p n = Except.ok r := by
  unfold interBlock
  set inter := findIntersectingNodesBelow sc ⟨p, n⟩ with hinter
  by_cases hlen : inter.length > 0
  · rw [if_pos hlen]
    have hmem : ∀ pn ∈ sortJs polySortCmp (inter.map (fun e => createPolychromNode sc e e.node.data.id)),
        ∃ x, lookupById inter pn.id = some x ∧ x ∈ inter := by
      intro pn hpn
      rw [mem_sortJs] at hpn
      obtain ⟨e, he, rfl⟩ := List.mem_map.mp hpn
      exact lookupById_of_mem inter e he
    obtain ⟨sortedNodes, hres, hsub⟩ := resolveSortedNodes_isOk inter _ hmem
    simp only [hres]
    obtain ⟨r5, h5⟩ := phase5Scan_isOk sc ⟨p, n⟩ sortedNodes
    simp only [h5]
    cases r5 with
    | some c => exact ⟨some (c, Phase.intersecting), rfl⟩
    | none =>
      have hvalid : ∀ e ∈ sortedNodes, (Scene.lookup sc e.path).isSome := by
        intro e he
        have := hsub e he
        rw [hinter, mem_findIntersectingNodesBelow] at this
        exact Option.isSome_iff_exists.mpr ⟨e.node, getAllNodesOnPage_sound sc e this.1⟩
      obtain ⟨r6, h6⟩ := phase6Scan_isOk sc n sortedNodes hvalid
      simp only [h6]
      cases r6 with
      | some c => exact ⟨some (c, Phase.ancestor), rfl⟩
      | none => exact ⟨none, rfl⟩
  · rw [if_neg hlen]
    exact ⟨none, rfl⟩

/-- The whole `try` body of `detectBackgroundColor` cannot throw on a node
    found in the scene: some phase always produces a color. -/
theorem detectTry_isOk (sc : Scene) (p : NodePath) (n : Node)
    (h : Scene.lookup sc p = some n) :
    ∃ c ph, detectTry sc p = Except.ok (c, ph) := by
  obtain ⟨r1, h1⟩ := phase1_isOk sc p n h
  obtain ⟨r2, h2⟩ := phase2_isOk sc p n h
  obtain ⟨r3, h3⟩ := interBlock_isOk sc p n
  unfold detectTry
  simp only [h, orPhase, h1, h2, h3]
  cases r1 with
  | some c => exact ⟨c, Phase.sibling, rfl⟩
  | none =>
    cases r2 with
    | some c => exact ⟨c, Phase.parent, rfl⟩
    | none =>
      cases r3 with
      | some cp => exact ⟨cp.1, cp.2, rfl⟩
      | none => exact ⟨(phase7 sc).1, (phase7 sc).2, rfl⟩

/-! ## Phase bookkeeping and further helper lemmas -/

/-- A chained phase answer carries its own tag or comes from the rest of
    the chain. -/
theorem orPhase_ok_cases (step : Except Unit (Option RGB)) (ph : Phase)
    (rest : Except Unit (RGB × Phase)) (c : RGB) (ph' : Phase)
    (h : orPhase step ph rest = Except.ok (c, ph')) :
    ph' = ph ∨ rest = Except.ok (c, ph') := by
  unfold orPhase at h
  cases step with
  | error er => simp at h
  | ok r =>
    cases r with
    | some c0 =>
      left
      have := (Except.ok.injEq _ _ ).mp h
      exact (Prod.mk.injEq .. ▸ this).2.symm
    | none => right; exact h

/-- The intersecting-node block only ever tags its answers with
    `intersecting` or `ancestor`. -/
theorem interBlock_phase (sc : Scene) (p : NodePath) (n : Node) (c : RGB) (ph : Phase)
    (h : interBlock sc p n = Except.ok (some (c, ph))) :
    ph = Phase.intersecting ∨ ph = Phase.ancestor := by
  unfold interBlock at h
  dsimp only at h
  repeat' split at h
  all_goals simp_all

/-- PHASE 7 always tags its answer with `page`: the record returned by
    `getPageBackground` is truthy, so the PHASE 8 branch is dead. -/
theorem phase7_snd (sc : Scene) : (phase7 sc).2 = Phase.page := rfl

/-- The `hasValidSolidFill` guard, decomposed: a `fills` property holding
    some eligible fill. -/
theorem hasValidSolidFill_parts (n : Node) (h : hasValidSolidFill n = true) :
    ∃ fills, n.data.fills = some fills ∧ ∃ g ∈ fills, isEligibleFill g = true := by
  unfold hasValidSolidFill at h
  cases hf : n.data.fills with
  | none => rw [hf] at h; simp at h
  | some fills =>
    rw [hf] at h
    replace h := of_if_false (of_if_false (of_if_false h))
    obtain ⟨f, hfind⟩ := Option.isSome_iff_exists.mp h
    exact ⟨fills, rfl, f, List.mem_of_find?_eq_some hfind, List.find?_some hfind⟩

/-- On a validated node the extraction `find` succeeds and the found fill
    satisfies the extraction predicate. -/
theorem getActualFill_isSome (n : Node) (h : hasValidSolidFill n = true) :
    ∃ f, getActualFill n = some f ∧ isVisibleSolidFill f = true := by
  obtain ⟨fills, hf, g, hgm, hge⟩ := hasValidSolidFill_parts n h
  have hvis := isVisibleSolidFill_of_eligible g hge
  unfold getActualFill
  rw [hf]
  simp only [Option.getD_some]
  cases hall : fills.find? isVisibleSolidFill with
  | none => exact absurd (List.find?_eq_none.mp hall g hgm) (by simp [hvis])
  | some f => exact ⟨f, rfl, List.find?_some hall⟩

/-- Replacing a node's own blend mode, leaving everything else intact. -/
def Node.withBlendMode (n : Node) (m : Option BlendMode) : Node :=
  .mk { n.data with blendMode := m } n.children

/-- The sibling scan never reads a sibling's blend mode: its three
    ingredients only touch `fills`, `visible`, `opacity` and the bounding
    box. -/
theorem phase1Scan_ignores_blendMode (node : Node) (m : Option BlendMode) (sibs : List Node) :
    phase1Scan node (sibs.map (fun s => s.withBlendMode m)) = phase1Scan node sibs := by
  induction sibs with
  | nil => rfl
  | cons s rest ih =>
    have h1 : hasValidSolidFill (s.withBlendMode m) = hasValidSolidFill s := rfl
    have h2 : doesNodeIntersectOrEncapsulate (s.withBlendMode m) node =
        doesNodeIntersectOrEncapsulate s node := rfl
    have h3 : extractSolidColor (s.withBlendMode m) = extractSolidColor s := rfl
    simp only [List.map_cons, phase1Scan, h1, h2, h3, ih]

/-- The sibling scan is the `find?` of the conjunction of its two guards,
    followed by extraction from the hit. -/
theorem phase1Scan_eq_find (node : Node) (sibs : List Node) :
    phase1Scan node sibs =
      match sibs.find? (fun s => hasValidSolidFill s && doesNodeIntersectOrEncapsulate s node) with
      | some s =>
        (match extractSolidColor s with
         | .ok c => Except.ok (some c)
         | .error er => Except.error er)
      | none => Except.ok none := by
  induction sibs with
  | nil => rfl
  | cons s rest ih =>
    by_cases h1 : hasValidSolidFill s = true
    · by_cases h2 : doesNodeIntersectOrEncapsulate s node = true
      · rw [List.find?_cons_of_pos _ (by simp [h1, h2])]
        simp only [phase1Scan, if_pos h1, if_pos h2]
      · rw [List.find?_cons_of_neg _ (by simp [h1, h2])]
        simp only [phase1Scan, if_pos h1, if_neg h2, ih]
    · rw [List.find?_cons_of_neg _ (by simp [h1])]
      simp only [phase1Scan, if_neg h1, ih]

/-- Whatever `detectTry` answers, the tag is never the PHASE 8 tag. -/
theorem detectTry_not_fallback (sc : Scene) (p : NodePath) (c : RGB) (ph : Phase)
    (h : detectTry sc p = Except.ok (c, ph)) : ph ≠ Phase.fallback := by
  unfold detectTry at h
  cases hl : Scene.lookup sc p with
  | none => rw [hl] at h; simp at h
  | some n =>
    rw [hl] at h
    rcases orPhase_ok_cases _ _ _ _ _ h with h1 | h
    · rw [h1]; simp
    · rcases orPhase_ok_cases _ _ _ _ _ h with h2 | h
      · rw [h2]; simp
      · cases hib : interBlock sc p n with
        | error er => rw [hib] at h; simp at h
        | ok r =>
          cases r with
          | some cp =>
            rw [hib] at h
            simp only [Except.ok.injEq] at h
            have hph2 : ph = cp.2 := by rw [h]
            rcases interBlock_phase sc p n cp.1 cp.2 (by rw [hib]) with hph | hph <;>
              · rw [hph2, hph]; simp
          | none =>
            rw [hib] at h
            simp only [Except.ok.injEq] at h
            have : ph = (phase7 sc).2 := by rw [h]
            rw [this, phase7_snd]
            simp

/-- With no eligible paint in `page.backgrounds` and no solid legacy
    `page.background`, the backgrounds branch returns the dark fallback. -/
theorem pageBgBackgroundsBranch_fallback (sc : Scene)
    (h2 : ∀ f ∈ sc.pageBackgrounds.getD [], pageSolidVisible f = false)
    (h3 : ∀ f, sc.pageBackground = some f → f.isSolid = false) :
    pageBgBackgroundsBranch sc = ⟨30, 30, 30, 1⟩ := by
  have hleg : pageBgLegacyBranch sc = ⟨30, 30, 30, 1⟩ := by
    unfold pageBgLegacyBranch
    cases hpb : sc.pageBackground with
    | none => rfl
    | some f =>
      have := h3 f hpb
      cases hp : f.paint with
      | solid c => simp [Fill.isSolid, hp] at this
      | gradient => simp only [hp]
      | image => simp only [hp]
  unfold pageBgBackgroundsBranch
  cases hb : sc.pageBackgrounds with
  | none => exact hleg
  | some backgrounds =>
    rw [hb] at h2
    simp only [Option.getD_some] at h2
    have hnone : backgrounds.find? pageSolidVisible = none :=
      List.find?_eq_none.mpr (fun f hf => by simp [h2 f hf])
    by_cases hlen : backgrounds.length > 0
    · simp [hlen, hnone, hleg]
    · simp [hlen, hleg]

/-! ## The claims -/

/-- C1: background resolution is total. For any node found in the scene no
    phase of the `try` body of `detectBackgroundColor` throws (the `catch`
    mapping any exception to RGB(30,30,30) is never exercised), and
    `detectBackgroundColor` returns exactly the concrete color some phase
    produced — it never returns null. -/
theorem claim1_totality (sc : Scene) (p : NodePath) (n : Node)
    (h : Scene.lookup sc p = some n) :
    ∃ c ph, detectTry sc p = Except.ok (c, ph) ∧ detectBackgroundColor sc p = c := by
  obtain ⟨c, ph, hc⟩ := detectTry_isOk sc p n h
  exact ⟨c, ph, hc, by simp only [detectBackgroundColor, hc]⟩

/-- Witness for C1: the bare scene (no siblings, no parent fill, empty
    page) still resolves, through the page phase. -/
theorem claim1_witness :
    Scene.lookup sceneBare [0] = some (leaf (mkData 1 (some ⟨0, 0, 10, 10⟩) none none)) ∧
    ∃ c ph, detectTry sceneBare [0] = Except.ok (c, ph) ∧
      detectBackgroundColor sceneBare [0] = c :=
  ⟨by with_unfolding_all rfl,
   claim1_totality sceneBare [0] _ (by with_unfolding_all rfl)⟩

/-- C2, counterexample: the color extraction ignores per-fill opacity. The
    accepted sibling's first visible solid fill is the opacity-0 red fill,
    and resolution returns ITS color, although only the later blue fill is
    an eligible background source. -/
theorem claim2_counterexample :
    detectTry sceneOpacityZero [1] = Except.ok (⟨255, 0, 0⟩, Phase.sibling) ∧
    getActualFill mixedFillSibling = some redZeroOpacityFill ∧
    redZeroOpacityFill.opacity = some 0 ∧
    isEligibleFill redZeroOpacityFill = false ∧
    isEligibleFill blueOpaqueFill = true := by
  refine ⟨?_, ?_, ?_, ?_, ?_⟩ <;> with_unfolding_all rfl

/-- C2, amended: a node accepted as a background source always carries
    SOME eligible fill (solid, visible, opacity > 0), but the fill whose
    color is extracted is merely the first solid fill with
    `visible !== false` — its opacity is not checked and may be 0. -/
theorem claim2_extracted_fill (n : Node) (h : hasValidSolidFill n = true) :
    ∃ f, getActualFill n = some f ∧ f.isSolid = true ∧ ¬(f.visible = some false) ∧
      ∃ g ∈ n.data.fills.getD [], isEligibleFill g = true := by
  obtain ⟨f, hf, hp⟩ := getActualFill_isSome n h
  obtain ⟨fills, hfs, g, hgm, hge⟩ := hasValidSolidFill_parts n h
  simp only [isVisibleSolidFill, Bool.and_eq_true, Bool.not_eq_true',
    beq_eq_false_iff_ne, ne_eq] at hp
  exact ⟨f, hf, hp.1, hp.2, g, by simp [hfs, hgm], hge⟩

/-- Witness for the amended C2 at the mixed-fill sibling. -/
theorem claim2_witness :
    hasValidSolidFill mixedFillSibling = true ∧
    ∃ f, getActualFill mixedFillSibling = some f ∧ f.isSolid = true ∧
      ¬(f.visible = some false) ∧
      ∃ g ∈ mixedFillSibling.data.fills.getD [], isEligibleFill g = true :=
  ⟨by with_unfolding_all rfl,
   claim2_extracted_fill mixedFillSibling (by with_unfolding_all rfl)⟩

/-- C3, counterexample: with the selection at root index 0 and an
    overlapping node at root index 1 — strictly above it in root stacking
    order — the intersection finder still returns that node: the search
    universe is not restricted to z-index at or before the selection. -/
theorem claim3_counterexample :
    (findIntersectingNodesBelow sceneAbove ⟨[0], aboveTarget⟩).map
        (fun e => (e.path, e.node.data.id)) = [([1], 2)] ∧
    sceneAbove.pageChildren[0]? = some aboveTarget ∧
    sceneAbove.pageChildren[1]? = some aboveNode ∧
    aboveNode.data.id = 2 := by
  refine ⟨?_, ?_, ?_, ?_⟩ <;> with_unfolding_all rfl

/-- C3, amended: the intersection finder's universe is the full page
    forest regardless of the selection's position; the returned list is
    exactly the visible, intersecting, non-self nodes (by id), with no
    z-order restriction of any kind. -/
theorem claim3_search_universe (sc : Scene) (t e : FNode) :
    e ∈ findIntersectingNodesBelow sc t ↔
      (e ∈ getAllNodesOnPage sc ∧ e.node.data.id ≠ t.node.data.id ∧
       doesIntersect t.node e.node = true ∧ isNodeVisible sc e.path = true) :=
  mem_findIntersectingNodesBelow sc t e

/-- Witness for the amended C3: the above-node of the concrete scene is in
    the list. -/
theorem claim3_witness :
    (⟨[1], aboveNode⟩ : FNode) ∈ findIntersectingNodesBelow sceneAbove ⟨[0], aboveTarget⟩ := by
  refine (claim3_search_universe sceneAbove ⟨[0], aboveTarget⟩ ⟨[1], aboveNode⟩).mpr
    ⟨?_, ?_, ?_, ?_⟩
  · have h : getAllNodesOnPage sceneAbove = [⟨[0], aboveTarget⟩, ⟨[1], aboveNode⟩] := by
      with_unfolding_all rfl
    rw [h]
    exact List.mem_cons.mpr (Or.inr (List.mem_singleton.mpr rfl))
  · intro hcon
    have h1 : aboveNode.data.id = 2 := rfl
    have h2 : aboveTarget.data.id = 1 := rfl
    rw [h1, h2] at hcon
    cases hcon
  · with_unfolding_all rfl
  · with_unfolding_all rfl

/-- C4, counterexample: at equal nesting level the comparator computes
    `(a.zIndex ?? 0) - (b.zIndex ?? 0)` — ascending z-index, not
    descending absolute value: the node with |zIndex| = 2 is ordered AFTER
    the node with |zIndex| = 0 (positive comparator value), where the
    claimed ordering would put it first. -/
theorem claim4_counterexample :
    polySortCmp polyZ2 polyZ0 = 2 ∧
    polyZ2.nestingLevel = polyZ0.nestingLevel ∧
    (polyZ2.zIndex.getD 0).natAbs > (polyZ0.zIndex.getD 0).natAbs := by
  refine ⟨?_, ?_, ?_⟩
  · with_unfolding_all rfl
  · rfl
  · decide

/-- C4, amended: the comparator orders by nesting level descending as its
    primary key; for equal nesting levels the secondary key is the plain
    zIndex ascending (missing zIndex treated as 0) — no absolute value and
    no descending direction. -/
theorem claim4_comparator (a b : PolyNode) :
    (a.nestingLevel ≠ b.nestingLevel →
      (polySortCmp a b < 0 ↔ b.nestingLevel < a.nestingLevel)) ∧
    (a.nestingLevel = b.nestingLevel →
      (polySortCmp a b < 0 ↔ a.zIndex.getD 0 < b.zIndex.getD 0)) := by
  constructor
  · intro hne
    unfold polySortCmp
    rw [if_pos (by simp [hne])]
    omega
  · intro heq
    unfold polySortCmp
    rw [if_neg (by simp [heq])]
    omega

/-- Witness for the amended C4 at the two concrete polychrom nodes. -/
theorem claim4_witness :
    polySortCmp polyZ2 polyZ0 < 0 ↔ polyZ2.zIndex.getD 0 < polyZ0.zIndex.getD 0 :=
  (claim4_comparator polyZ2 polyZ0).2 rfl

/-- C5: the blend-mode filter is NOT recursive, contradicting both the
    spec and the function's own doc comment ("Recursively check if a node
    and all its children have valid blend modes"): `hasValidBlendModes`
    never reads the children, so a node nested inside a LINEAR_BURN frame
    stays eligible, and in the concrete scene the resolved background IS
    the green fill of such a nested child. -/
theorem claim5_blend_filter_not_recursive :
    (∀ (d : NodeData) (cs : List Node),
      hasValidBlendModes (Node.mk d cs) = hasValidBlendModes (Node.mk d [])) ∧
    (Scene.lookup sceneBurnFrame [0]).map (fun n => n.data.blendMode) =
      some (some BlendMode.LINEAR_BURN) ∧
    hasValidBlendMode (some BlendMode.LINEAR_BURN) = false ∧
    Scene.lookup sceneBurnFrame [0, 0] = some burnFrameChild ∧
    burnFrameChild.data.fills = some [solidFill green] ∧
    hasValidBlendModes burnFrameChild = true ∧
    detectTry sceneBurnFrame [1] = Except.ok (⟨0, 255, 0⟩, Phase.intersecting) := by
  refine ⟨fun d cs => rfl, ?_, ?_, ?_, ?_, ?_, ?_⟩ <;> with_unfolding_all rfl

/-- C6, counterexample: the sibling phase contains no blend-mode check: a
    LINEAR_BURN sibling with a valid red fill that overlaps the target is
    taken, not skipped. -/
theorem claim6_counterexample :
    burnSibling.data.blendMode = some BlendMode.LINEAR_BURN ∧
    hasValidBlendMode (some BlendMode.LINEAR_BURN) = false ∧
    detectTry sceneBurnSibling [1] = Except.ok (⟨255, 0, 0⟩, Phase.sibling) ∧
    extractSolidColor burnSibling = Except.ok ⟨255, 0, 0⟩ := by
  refine ⟨?_, ?_, ?_, ?_⟩ <;> with_unfolding_all rfl

/-- C6, amended: the sibling phase is entirely independent of the
    siblings' blend modes — rewriting every sibling's blend mode to any
    value (supported or not) leaves the scan's result unchanged;
    blend-mode exclusion happens only in the intersecting-node phases. -/
theorem claim6_sibling_blendmode_ignored (node : Node) (m : Option BlendMode)
    (sibs : List Node) :
    phase1Scan node (sibs.map (fun s => s.withBlendMode m)) = phase1Scan node sibs :=
  phase1Scan_ignores_blendMode node m sibs

/-- C7, counterexample: a sibling that neither intersects nor encloses the
    target is still taken when it is more than 3x larger in both
    dimensions — the `isSignificantlyLarger` disjunct fires on a disjoint
    pair. -/
theorem claim7_counterexample :
    rectsOverlap farSiblingBox farTargetBox = false ∧
    rectContainsRect farSiblingBox farTargetBox = false ∧
    rectSignificantlyLarger farSiblingBox farTargetBox = true ∧
    detectTry sceneFarSibling [1] = Except.ok (⟨255, 0, 0⟩, Phase.sibling) := by
  refine ⟨?_, ?_, ?_, ?_⟩ <;> with_unfolding_all rfl

/-- C7, amended: the sibling phase returns the extracted fill color of
    exactly the first scanned sibling with a valid solid fill whose
    geometry intersects, fully encloses, OR is significantly larger
    (more than 3x in both dimensions) than the target. -/
theorem claim7_sibling_scan (node : Node) (sibs : List Node) :
    phase1Scan node sibs =
      match sibs.find? (fun s => hasValidSolidFill s && doesNodeIntersectOrEncapsulate s node) with
      | some s =>
        (match extractSolidColor s with
         | .ok c => Except.ok (some c)
         | .error er => Except.error er)
      | none => Except.ok none :=
  phase1Scan_eq_find node sibs

/-- C8, counterexample: the selected node's own fill CAN be returned. The
    selected frame is the only node in the scene with any fill; its
    fill-less child intersects it, and the ancestor phase walks from the
    child up to the selected frame itself and returns the frame's own blue
    fill. -/
theorem claim8_counterexample :
    detectTry sceneSelfFill [0] = Except.ok (⟨0, 0, 255⟩, Phase.ancestor) ∧
    Scene.lookup sceneSelfFill [0] = some selfFillFrame ∧
    extractSolidColor selfFillFrame = Except.ok ⟨0, 0, 255⟩ ∧
    (Scene.lookup sceneSelfFill [0, 0]).map (fun n => n.data.fills) = some (some []) ∧
    sceneSelfFill.pageFills = none ∧
    sceneSelfFill.pageBackgrounds = none ∧
    sceneSelfFill.pageBackground = none := by
  refine ⟨?_, ?_, ?_, ?_, ?_, ?_, ?_⟩ <;> with_unfolding_all rfl

/-- C8, amended: the selected node never appears in the intersecting-node
    list (every entry differs from it by id) — but the ancestor phase can
    still extract the selected node's own fill when an intersecting node
    is one of its descendants. -/
theorem claim8_list_excludes_self (sc : Scene) (t : FNode) :
    ∀ e ∈ findIntersectingNodesBelow sc t, e.node.data.id ≠ t.node.data.id := by
  intro e he
  exact ((mem_findIntersectingNodesBelow sc t e).mp he).2.1

/-- Witness for the amended C8 at the concrete two-node scene. -/
theorem claim8_witness :
    (⟨[1], aboveNode⟩ : FNode) ∈ findIntersectingNodesBelow sceneAbove ⟨[0], aboveTarget⟩ ∧
    (⟨[1], aboveNode⟩ : FNode).node.data.id ≠ (⟨[0], aboveTarget⟩ : FNode).node.data.id := by
  have hm : (⟨[1], aboveNode⟩ : FNode) ∈ findIntersectingNodesBelow sceneAbove ⟨[0], aboveTarget⟩ := by
    have he : findIntersectingNodesBelow sceneAbove ⟨[0], aboveTarget⟩ = [⟨[1], aboveNode⟩] := by
      with_unfolding_all rfl
    rw [he]
    exact List.mem_singleton.mpr rfl
  exact ⟨hm, claim8_list_excludes_self sceneAbove ⟨[0], aboveTarget⟩ _ hm⟩

/-- C9: `getPageBackground` is total and returns the dark fallback
    RGB(30,30,30) with opacity 1 whenever the page exposes no eligible
    fill, backgrounds entry, or solid legacy background; consequently the
    record it returns is always truthy and the PHASE 8 branch of
    `detectBackgroundColor` is unreachable — no successful resolution ever
    carries the `fallback` tag. -/
theorem claim9_page_fallback (sc : Scene)
    (h1 : ∀ f ∈ sc.pageFills.getD [], pageSolidVisible f = false)
    (h2 : ∀ f ∈ sc.pageBackgrounds.getD [], pageSolidVisible f = false)
    (h3 : ∀ f, sc.pageBackground = some f → f.isSolid = false) :
    getPageBackground sc = ⟨30, 30, 30, 1⟩ ∧
    (∀ p c ph, detectTry sc p = Except.ok (c, ph) → ph ≠ Phase.fallback) := by
  constructor
  · unfold getPageBackground
    cases hf : sc.pageFills with
    | none => exact pageBgBackgroundsBranch_fallback sc h2 h3
    | some fills =>
      rw [hf] at h1
      simp only [Option.getD_some] at h1
      have hnone : fills.find? pageSolidVisible = none :=
        List.find?_eq_none.mpr (fun f hfm => by simp [h1 f hfm])
      by_cases hlen : fills.length > 0
      · simp [hlen, hnone, pageBgBackgroundsBranch_fallback sc h2 h3]
      · simp [hlen, pageBgBackgroundsBranch_fallback sc h2 h3]
  · intro p c ph hok
    exact detectTry_not_fallback sc p c ph hok

/-- Witness for C9 at the bare scene: the page background is the dark
    fallback, and the concrete resolution result is tagged `page`. -/
theorem claim9_witness :
    getPageBackground sceneBare = ⟨30, 30, 30, 1⟩ ∧ Phase.page ≠ Phase.fallback := by
  have h := claim9_page_fallback sceneBare
    (by intro f hf; exact absurd hf (List.not_mem_nil f))
    (by intro f hf; exact absurd hf (List.not_mem_nil f))
    (by intro f hcon; rw [show sceneBare.pageBackground = none from rfl] at hcon; cases hcon)
  exact ⟨h.1, h.2 [0] ⟨30, 30, 30⟩ Phase.page (by with_unfolding_all rfl)⟩

/-- C10: for a target and a candidate that do not share a direct parent
    (by parent id) and whose bounding boxes overlap under the strict
    interval test, `doesNodeIntersectAndIsBelow` answers `true` with no
    z-order comparison at all — an intersecting non-sibling is always
    treated as lying below the target. -/
theorem claim10_nonsibling_assumed_below (sc : Scene) (a b : FNode) (boxA boxB : Rect)
    (ha : a.node.data.bbox = some boxA) (hb : b.node.data.bbox = some boxB)
    (hov : rectsOverlap boxA boxB = true)
    (hpar : parentIdOf sc a.path ≠ parentIdOf sc b.path) :
    doesNodeIntersectAndIsBelow sc a b = true := by
  unfold doesNodeIntersectAndIsBelow
  simp only [ha, hb, hov, if_true]
  cases hpa : parentIdOf sc a.path with
  | none => rfl
  | some pa =>
    cases hpb : parentIdOf sc b.path with
    | none => rfl
    | some pb =>
      have hne : ¬(pa = pb) := fun hcon => hpar (by rw [hpa, hpb, hcon])
      simp [hne]

/-- Witness for C10: the nested red candidate of the concrete scene is
    treated as below the root-level target. -/
theorem claim10_witness :
    doesNodeIntersectAndIsBelow sceneNonSibling nonSiblingA nonSiblingB = true := by
  refine claim10_nonsibling_assumed_below sceneNonSibling nonSiblingA nonSiblingB
    ⟨5, 5, 10, 10⟩ ⟨0, 0, 40, 40⟩ (by with_unfolding_all rfl) (by with_unfolding_all rfl)
    (by with_unfolding_all rfl) ?_
  have h1 : parentIdOf sceneNonSibling nonSiblingA.path = some 100 := by with_unfolding_all rfl
  have h2 : parentIdOf sceneNonSibling nonSiblingB.path = some 2 := by with_unfolding_all rfl
  rw [h1, h2]
  simp

end FigmaBg
